import Mathlib

/-!
Shallow embedding of the inventory ledger and sale-transaction engine of the
retail POS repository (Drizzle schema plus the two IStorage implementations,
MemStorage and DatabaseStorage).

Modeling conventions:
- JavaScript Map objects (keyed by UUID strings) become association lists kept
  in insertion order; Map.get is a search by key and Map.set replaces the row
  in place when the key is present and appends otherwise, matching Map
  iteration semantics.
- randomUUID() and the database uuid defaults become a deterministic fresh-id
  counter threaded through the state; generated ids never collide with stored
  ones, which mirrors the uniqueness the UUID generator provides.
- Date values become Nat ticks; each storage method receives the current tick
  as the parameter now, standing for the new Date() calls it performs.
- Monetary decimal columns are exact decimals in the source (strings parsed
  with parseFloat, written back with toFixed(2)); they are modeled as rationals,
  with parseFloat and toFixed(2) as the identity on exact two-decimal values.
  Floating-point rounding is out of scope of the embedding.
- Database statements are modeled by their effect on the table rows; low-level
  store failures (the StoreUnavailable class) are not modeled, so the
  try/catch wrappers in DatabaseStorage take their success branch.
-/

/-- Map.get on an association of rows keyed by a projection. -/
def mapGetBy {α : Type} (key : α → String) : List α → String → Option α
  | [], _ => none
  | x :: rest, k => if key x = k then some x else mapGetBy key rest k

/-- Map.set on an association of rows keyed by a projection: replace the row
in place when the key is present, append otherwise. -/
def mapSetBy {α : Type} (key : α → String) (x : α) : List α → List α
  | [] => [x]
  | y :: rest => if key y = key x then x :: rest else y :: mapSetBy key x rest

/-- Fresh identifier produced by the modeled UUID generator. -/
def freshId (n : Nat) : String := "uuid-" ++ toString n

/-- Product row (the columns the ledger core reads or writes). -/
structure Product where
  id : String
  name : String
  sku : String
  costPrice : ℚ
  price : ℚ
  quantity : Int
  minStockLevel : Int
  trackStock : Bool
  isActive : Bool
  updatedAt : Option Nat
deriving DecidableEq, Repr

/-- Customer row. -/
structure Customer where
  id : String
  name : String
  loyaltyPoints : Int
  totalSpent : ℚ
deriving DecidableEq, Repr

/-- Sale header row. -/
structure Sale where
  id : String
  invoiceNumber : String
  customerId : Option String
  userId : String
  subtotal : ℚ
  taxAmount : ℚ
  discountAmount : ℚ
  total : ℚ
  paymentMethod : String
  status : String
  createdAt : Nat
deriving DecidableEq, Repr

/-- Sale header fields supplied by the caller (InsertSale). -/
structure InsertSale where
  invoiceNumber : String
  customerId : Option String
  userId : String
  subtotal : ℚ
  taxAmount : ℚ
  discountAmount : ℚ
  total : ℚ
  paymentMethod : String
  status : String
deriving DecidableEq, Repr

/-- Sale line item row. -/
structure SaleItem where
  id : String
  saleId : String
  productId : String
  quantity : Int
  unitPrice : ℚ
  totalPrice : ℚ
deriving DecidableEq, Repr

/-- Sale line fields supplied by the caller (InsertSaleItem). -/
structure InsertSaleItem where
  productId : String
  quantity : Int
  unitPrice : ℚ
  totalPrice : ℚ
deriving DecidableEq, Repr

/-- Stock movement audit row. -/
structure StockMovement where
  id : String
  productId : String
  movementType : String
  quantity : Int
  reason : Option String
  reference : Option String
  userId : String
  createdAt : Nat
deriving DecidableEq, Repr

/-- Return row. -/
structure Return where
  id : String
  saleId : String
  productId : String
  quantity : Int
  reason : String
  refundAmount : ℚ
  userId : String
  createdAt : Nat
deriving DecidableEq, Repr

/-- Return fields supplied by the caller (InsertReturn). -/
structure InsertReturn where
  saleId : String
  productId : String
  quantity : Int
  reason : String
  refundAmount : ℚ
  userId : String
deriving DecidableEq, Repr

/-- Purchase order row. -/
structure PurchaseOrder where
  id : String
  orderNumber : String
  supplierId : String
  status : String
  totalAmount : ℚ
  userId : String
  createdAt : Nat
  receivedAt : Option Nat
deriving DecidableEq, Repr

/-- Purchase order line row. -/
structure PurchaseOrderItem where
  id : String
  purchaseOrderId : String
  productId : String
  quantity : Int
  unitCost : ℚ
  totalCost : ℚ
deriving DecidableEq, Repr

/-- The tables shared by both IStorage implementations.  MemStorage holds them
as Map fields, DatabaseStorage as relational tables; both are row collections
in insertion order. -/
structure StoreState where
  products : List Product
  customers : List Customer
  sales : List Sale
  saleItems : List SaleItem
  stockMovements : List StockMovement
  returns : List Return
  purchaseOrders : List PurchaseOrder
  purchaseOrderItems : List PurchaseOrderItem
  uuidCounter : Nat
deriving DecidableEq, Repr

/-- The empty store. -/
def emptyStore : StoreState :=
  { products := [], customers := [], sales := [], saleItems := [],
    stockMovements := [], returns := [], purchaseOrders := [],
    purchaseOrderItems := [], uuidCounter := 0 }

/-- Quantity of the product with the given id in a product list, 0 when
absent. -/
def qtyOfL (products : List Product) (pid : String) : Int :=
  match mapGetBy Product.id products pid with
  | some p => p.quantity
  | none => 0

/-- Quantity of the product with the given id, 0 when absent. -/
def qtyOf (s : StoreState) (pid : String) : Int :=
  qtyOfL s.products pid

/-- Sum of the signed deltas of a list of stock movements for a product. -/
def movementSumL (l : List StockMovement) (pid : String) : Int :=
  ((l.filter (fun m => decide (m.productId = pid))).map
    (fun m => m.quantity)).sum

/-- Sum of the signed deltas of the stock movements recorded for a product. -/
def movementSum (s : StoreState) (pid : String) : Int :=
  movementSumL s.stockMovements pid

namespace MemStorage

/-- MemStorage.updateProductStock: add the signed delta to the product
quantity, stamp updatedAt, and append a StockMovement when a userId is
given.  Returns false only when the product does not exist.  No trackStock
or non-negativity check is performed. -/
def updateProductStock (s : StoreState) (now : Nat) (id : String)
    (quantity : Int) (movementType : String) (reason : Option String)
    (userId : Option String) : StoreState × Bool :=
  match mapGetBy Product.id s.products id with
  | none => (s, false)
  | some product =>
    let updatedProduct :=
      { product with quantity := product.quantity + quantity,
                     updatedAt := some now }
    let s1 := { s with products := mapSetBy Product.id updatedProduct s.products }
    match userId with
    | some uid =>
      let movement : StockMovement :=
        { id := freshId s1.uuidCounter, productId := id,
          movementType := movementType, quantity := quantity,
          reason := reason, reference := none, userId := uid,
          createdAt := now }
      ({ s1 with stockMovements := s1.stockMovements ++ [movement],
                 uuidCounter := s1.uuidCounter + 1 }, true)
    | none => (s1, true)

/-- The per-line loop of MemStorage.createSale: persist the SaleItem, then
call updateProductStock with the negated quantity, for every line in order. -/
def createSaleLoop (now : Nat) (saleId invoiceNumber userId : String)
    (items : List InsertSaleItem) (s : StoreState) : StoreState :=
  match items with
  | [] => s
  | itemData :: rest =>
    let saleItem : SaleItem :=
      { id := freshId s.uuidCounter, saleId := saleId,
        productId := itemData.productId, quantity := itemData.quantity,
        unitPrice := itemData.unitPrice, totalPrice := itemData.totalPrice }
    let st1 := { s with saleItems := s.saleItems ++ [saleItem],
                        uuidCounter := s.uuidCounter + 1 }
    let st2 := (updateProductStock st1 now saleItem.productId
      (- saleItem.quantity) "sale" (some ("Sale " ++ invoiceNumber))
      (some userId)).1
    createSaleLoop now saleId invoiceNumber userId rest st2

/-- The trailing block of MemStorage.createSale: when a customer is attached
and exists, add the sale total to totalSpent and the floor of the total to
loyaltyPoints. -/
def applyCustomerAggregates (customerId : Option String) (total : ℚ)
    (s1 : StoreState) : StoreState :=
  match customerId with
  | some cid =>
    match mapGetBy Customer.id s1.customers cid with
    | some customer =>
      let updatedCustomer :=
        { customer with
            totalSpent := customer.totalSpent + total,
            loyaltyPoints := customer.loyaltyPoints + Rat.floor total }
      { s1 with customers := mapSetBy Customer.id updatedCustomer s1.customers }
    | none => s1
  | none => s1

/-- MemStorage.createSale: persist the header, run the per-line loop, then
update the attached customer aggregates when present. -/
def createSale (s : StoreState) (now : Nat) (insertSale : InsertSale)
    (items : List InsertSaleItem) : StoreState × Sale :=
  let saleId := freshId s.uuidCounter
  let sale : Sale :=
    { id := saleId, invoiceNumber := insertSale.invoiceNumber,
      customerId := insertSale.customerId, userId := insertSale.userId,
      subtotal := insertSale.subtotal, taxAmount := insertSale.taxAmount,
      discountAmount := insertSale.discountAmount, total := insertSale.total,
      paymentMethod := insertSale.paymentMethod, status := insertSale.status,
      createdAt := now }
  let s0 := { s with sales := s.sales ++ [sale],
                     uuidCounter := s.uuidCounter + 1 }
  let s1 := createSaleLoop now saleId sale.invoiceNumber sale.userId items s0
  (applyCustomerAggregates sale.customerId sale.total s1, sale)

/-- MemStorage.createReturn: persist the Return row, then call
updateProductStock with the positive returned quantity.  The boolean result
of the stock call is discarded. -/
def createReturn (s : StoreState) (now : Nat) (insertReturn : InsertReturn) :
    StoreState × Return :=
  let returnItem : Return :=
    { id := freshId s.uuidCounter, saleId := insertReturn.saleId,
      productId := insertReturn.productId, quantity := insertReturn.quantity,
      reason := insertReturn.reason, refundAmount := insertReturn.refundAmount,
      userId := insertReturn.userId, createdAt := now }
  let s1 := { s with returns := s.returns ++ [returnItem],
                     uuidCounter := s.uuidCounter + 1 }
  ((updateProductStock s1 now returnItem.productId returnItem.quantity
      "return" (some ("Return: " ++ returnItem.reason))
      (some returnItem.userId)).1, returnItem)

/-- The per-item loop of MemStorage.receivePurchaseOrder: apply the positive
stock delta, then overwrite the product cost price with the item unit cost. -/
def receiveLoop (now : Nat) (orderNumber userId : String)
    (items : List PurchaseOrderItem) (s : StoreState) : StoreState :=
  match items with
  | [] => s
  | item :: rest =>
    let st1 := (updateProductStock s now item.productId item.quantity
      "purchase" (some ("Purchase Order " ++ orderNumber)) (some userId)).1
    let st2 :=
      match mapGetBy Product.id st1.products item.productId with
      | some product =>
        let repriced :=
          { product with costPrice := item.unitCost, updatedAt := some now }
        { st1 with products := mapSetBy Product.id repriced st1.products }
      | none => st1
    receiveLoop now orderNumber userId rest st2

/-- MemStorage.receivePurchaseOrder: reject when the order is missing or its
status is already received (a cancelled status is not rejected); otherwise
mark the order received and run the per-item loop. -/
def receivePurchaseOrder (s : StoreState) (now : Nat) (id userId : String) :
    StoreState × Bool :=
  match mapGetBy PurchaseOrder.id s.purchaseOrders id with
  | none => (s, false)
  | some order =>
    if order.status = "received" then (s, false)
    else
      let updatedOrder :=
        { order with status := "received", receivedAt := some now }
      let orders1 := mapSetBy PurchaseOrder.id updatedOrder s.purchaseOrders
      let s1 := { s with purchaseOrders := orders1 }
      let orderItems := s1.purchaseOrderItems.filter
        (fun item => decide (item.purchaseOrderId = id))
      (receiveLoop now order.orderNumber userId orderItems s1, true)

end MemStorage

/-- Per-product accumulator of the getTopProducts aggregation
(the Map values in the source). -/
structure SalesAgg where
  totalSold : Int
  revenue : ℚ
deriving DecidableEq, Repr

/-- Keyed accumulator entry of the getTopProducts aggregation. -/
structure AggEntry where
  productId : String
  agg : SalesAgg
deriving DecidableEq, Repr

/-- One element of the getTopProducts result. -/
structure TopEntry where
  product : Product
  totalSold : Int
  revenue : ℚ
deriving DecidableEq, Repr

/-- The aggregation loop of getTopProducts: fold the sale items in insertion
order into a per-product Map of sold quantity and revenue. -/
def accumulateSales (items : List SaleItem) (acc : List AggEntry) :
    List AggEntry :=
  match items with
  | [] => acc
  | item :: rest =>
    let existing :=
      match mapGetBy AggEntry.productId acc item.productId with
      | some e => e.agg
      | none => { totalSold := 0, revenue := 0 }
    let updated : AggEntry :=
      { productId := item.productId,
        agg := { totalSold := existing.totalSold + item.quantity,
                 revenue := existing.revenue + item.totalPrice } }
    accumulateSales rest (mapSetBy AggEntry.productId updated acc)

/-- Stable insertion into a revenue-descending list: the new element passes
every strictly larger revenue and stops in front of the first element of
smaller or equal revenue, so earlier input stays in front on ties.  This is
the arrangement the stable JavaScript sort with comparator
b.revenue - a.revenue produces. -/
def insertByRevenue (a : TopEntry) : List TopEntry → List TopEntry
  | [] => [a]
  | b :: l =>
    if a.revenue < b.revenue then b :: insertByRevenue a l
    else a :: b :: l

/-- Stable descending sort by revenue, modeling the stable JavaScript
Array sort with comparator b.revenue - a.revenue. -/
def sortByRevenueDesc : List TopEntry → List TopEntry
  | [] => []
  | a :: rest => insertByRevenue a (sortByRevenueDesc rest)

namespace MemStorage

/-- MemStorage.getTopProducts: aggregate sale items per product, attach the
product row (dropping entries whose product no longer exists), sort by
revenue descending and truncate to the limit. -/
def getTopProducts (s : StoreState) (limit : Nat) : List TopEntry :=
  let productSales := accumulateSales s.saleItems []
  let entries := productSales.filterMap (fun e =>
    match mapGetBy Product.id s.products e.productId with
    | some p => some { product := p, totalSold := e.agg.totalSold,
                       revenue := e.agg.revenue }
    | none => none)
  (sortByRevenueDesc entries).take limit

end MemStorage

namespace DatabaseStorage

/-- DatabaseStorage.updateProductStock: the UPDATE sets the quantity column
to the argument (it does not add it), updatedAt is not stamped, and a
StockMovement carrying the argument is inserted when a userId is given.
Succeeds even when no product row matches. -/
def updateProductStock (s : StoreState) (now : Nat) (id : String)
    (quantity : Int) (movementType : String) (reason : Option String)
    (userId : Option String) : StoreState × Bool :=
  let products1 := s.products.map (fun p =>
    if p.id = id then { p with quantity := quantity } else p)
  let s1 := { s with products := products1 }
  match userId with
  | some uid =>
    let movement : StockMovement :=
      { id := freshId s1.uuidCounter, productId := id,
        movementType := movementType, quantity := quantity,
        reason := reason, reference := none, userId := uid,
        createdAt := now }
    ({ s1 with stockMovements := s1.stockMovements ++ [movement],
               uuidCounter := s1.uuidCounter + 1 }, true)
  | none => (s1, true)

/-- The per-line loop of DatabaseStorage.createSale: insert the SaleItem;
when the product exists and is tracked, decrement its quantity and insert a
movement with reference to the sale; untracked or missing products are
skipped. -/
def createSaleLoop (now : Nat) (saleId userId : String)
    (items : List InsertSaleItem) (s : StoreState) : StoreState :=
  match items with
  | [] => s
  | item :: rest =>
    let saleItem : SaleItem :=
      { id := freshId s.uuidCounter, saleId := saleId,
        productId := item.productId, quantity := item.quantity,
        unitPrice := item.unitPrice, totalPrice := item.totalPrice }
    let st1 := { s with saleItems := s.saleItems ++ [saleItem],
                        uuidCounter := s.uuidCounter + 1 }
    let st2 :=
      match mapGetBy Product.id st1.products item.productId with
      | some product =>
        if product.trackStock then
          let newQuantity := product.quantity - item.quantity
          let products2 := st1.products.map (fun p =>
            if p.id = item.productId then { p with quantity := newQuantity }
            else p)
          let movement : StockMovement :=
            { id := freshId st1.uuidCounter, productId := item.productId,
              movementType := "sale", quantity := - item.quantity,
              reason := some "Sale transaction", reference := some saleId,
              userId := userId, createdAt := now }
          { st1 with products := products2,
                     stockMovements := st1.stockMovements ++ [movement],
                     uuidCounter := st1.uuidCounter + 1 }
        else st1
      | none => st1
    createSaleLoop now saleId userId rest st2

/-- DatabaseStorage.createSale: insert the header, then run the per-line
loop.  No customer aggregate update is performed on this path. -/
def createSale (s : StoreState) (now : Nat) (insertSale : InsertSale)
    (items : List InsertSaleItem) : StoreState × Sale :=
  let saleId := freshId s.uuidCounter
  let sale : Sale :=
    { id := saleId, invoiceNumber := insertSale.invoiceNumber,
      customerId := insertSale.customerId, userId := insertSale.userId,
      subtotal := insertSale.subtotal, taxAmount := insertSale.taxAmount,
      discountAmount := insertSale.discountAmount, total := insertSale.total,
      paymentMethod := insertSale.paymentMethod, status := insertSale.status,
      createdAt := now }
  let s0 := { s with sales := s.sales ++ [sale],
                     uuidCounter := s.uuidCounter + 1 }
  (createSaleLoop now saleId sale.userId items s0, sale)

/-- DatabaseStorage.receivePurchaseOrder: a single UPDATE that marks the
order received and stamps receivedAt, whatever its current status, and
returns true.  No stock is applied and no movement is written. -/
def receivePurchaseOrder (s : StoreState) (now : Nat) (id userId : String) :
    StoreState × Bool :=
  let orders1 := s.purchaseOrders.map (fun o =>
    if o.id = id then { o with status := "received", receivedAt := some now }
    else o)
  ({ s with purchaseOrders := orders1 }, true)

/-- DatabaseStorage.getTopProducts: unimplemented stub returning the empty
list for every store and limit. -/
def getTopProducts (_ : StoreState) (_ : Nat) : List TopEntry := []

end DatabaseStorage

/-- The difference between stored quantity and recorded movement total; every
MemStorage ledger path preserves it. -/
def ledgerDrift (s : StoreState) (pid : String) : Int :=
  qtyOf s pid - movementSum s pid

/-- One committed MemStorage ledger operation: sale creation, manual stock
adjustment (the adjust-stock route forwards to updateProductStock with the
acting user), return creation, or purchase-order receipt. -/
inductive LedgerOp where
  | saleOp (now : Nat) (insertSale : InsertSale) (items : List InsertSaleItem)
  | adjustOp (now : Nat) (productId : String) (delta : Int)
      (reason : Option String) (userId : String)
  | returnOp (now : Nat) (insertReturn : InsertReturn)
  | receiveOp (now : Nat) (orderId : String) (userId : String)

/-- Apply one ledger operation to a MemStorage state. -/
def applyOp (s : StoreState) : LedgerOp → StoreState
  | LedgerOp.saleOp now insertSale items =>
      (MemStorage.createSale s now insertSale items).1
  | LedgerOp.adjustOp now productId delta reason userId =>
      (MemStorage.updateProductStock s now productId delta "adjustment"
        reason (some userId)).1
  | LedgerOp.returnOp now insertReturn =>
      (MemStorage.createReturn s now insertReturn).1
  | LedgerOp.receiveOp now orderId userId =>
      (MemStorage.receivePurchaseOrder s now orderId userId).1

/-- Run a finite sequence of ledger operations in order. -/
def runOps (s : StoreState) : List LedgerOp → StoreState
  | [] => s
  | op :: rest => runOps (applyOp s op) rest

/-- Total quantity sold of a product over a sale-item history. -/
def sumSold (items : List SaleItem) (pid : String) : Int :=
  ((items.filter (fun i => decide (i.productId = pid))).map
    (fun i => i.quantity)).sum

/-- Total revenue of a product over a sale-item history. -/
def sumRevenue (items : List SaleItem) (pid : String) : ℚ :=
  ((items.filter (fun i => decide (i.productId = pid))).map
    (fun i => i.totalPrice)).sum

/-- Sold count stored under a key of the aggregation accumulator. -/
def aggSoldOf (o : Option AggEntry) : Int :=
  match o with
  | some e => e.agg.totalSold
  | none => 0

/-- Revenue stored under a key of the aggregation accumulator. -/
def aggRevenueOf (o : Option AggEntry) : ℚ :=
  match o with
  | some e => e.agg.revenue
  | none => 0

/-- Concrete tracked product: quantity 5, minimum stock level 10. -/
def productP : Product :=
  { id := "P", name := "Widget", sku := "SKU-1", costPrice := 3.5,
    price := 10, quantity := 5, minStockLevel := 10, trackStock := true,
    isActive := true, updatedAt := none }

/-- Store holding only the tracked product P. -/
def storeP : StoreState := { emptyStore with products := [productP] }

/-- Sale header for a two-line cart, no customer attached. -/
def saleHeaderPG : InsertSale :=
  { invoiceNumber := "INV-1", customerId := none, userId := "u1",
    subtotal := 35, taxAmount := 0, discountAmount := 0, total := 35,
    paymentMethod := "cash", status := "completed" }

/-- Two cart lines: 3 units of the existing product P, then 1 unit of a
product id that does not exist in the store. -/
def linesPG : List InsertSaleItem :=
  [ { productId := "P", quantity := 3, unitPrice := 10, totalPrice := 30 },
    { productId := "ghost", quantity := 1, unitPrice := 5, totalPrice := 5 } ]

/-- A purchase order in the cancelled terminal state. -/
def cancelledOrder : PurchaseOrder :=
  { id := "O1", orderNumber := "PO-1", supplierId := "S1",
    status := "cancelled", totalAmount := 80, userId := "u1",
    createdAt := 0, receivedAt := none }

/-- A purchase order in the pending state. -/
def pendingOrder : PurchaseOrder :=
  { id := "O1", orderNumber := "PO-1", supplierId := "S1",
    status := "pending", totalAmount := 80, userId := "u1",
    createdAt := 0, receivedAt := none }

/-- A purchase order already received. -/
def receivedOrder : PurchaseOrder :=
  { id := "O1", orderNumber := "PO-1", supplierId := "S1",
    status := "received", totalAmount := 80, userId := "u1",
    createdAt := 0, receivedAt := some 3 }

/-- The single line of order O1: 20 units of P at unit cost 4.00. -/
def orderItemP : PurchaseOrderItem :=
  { id := "I1", purchaseOrderId := "O1", productId := "P", quantity := 20,
    unitCost := 4, totalCost := 80 }

/-- Product P as in Scenario C: quantity 2, cost price 3.50. -/
def productP2 : Product :=
  { id := "P", name := "Widget", sku := "SKU-1", costPrice := 3.5,
    price := 10, quantity := 2, minStockLevel := 10, trackStock := true,
    isActive := true, updatedAt := none }

/-- Store with product P (quantity 2) and the cancelled order O1. -/
def storeCancelled : StoreState :=
  { emptyStore with
      products := [productP2],
      purchaseOrders := [cancelledOrder],
      purchaseOrderItems := [orderItemP] }

/-- Store with product P (quantity 2) and the pending order O1. -/
def storePending : StoreState :=
  { emptyStore with
      products := [productP2],
      purchaseOrders := [pendingOrder],
      purchaseOrderItems := [orderItemP] }

/-- Store with product P (quantity 2) and the already received order O1. -/
def storeReceived : StoreState :=
  { emptyStore with
      products := [productP2],
      purchaseOrders := [receivedOrder],
      purchaseOrderItems := [orderItemP] }

/-- An untracked product with positive stock. -/
def untrackedProduct : Product :=
  { id := "U", name := "Service", sku := "SKU-U", costPrice := 1,
    price := 2, quantity := 5, minStockLevel := 0, trackStock := false,
    isActive := true, updatedAt := none }

/-- Store holding only the untracked product U. -/
def storeU : StoreState := { emptyStore with products := [untrackedProduct] }

/-- Sale header for a one-line cart on the untracked product. -/
def saleHeaderU : InsertSale :=
  { invoiceNumber := "INV-2", customerId := none, userId := "u1",
    subtotal := 4, taxAmount := 0, discountAmount := 0, total := 4,
    paymentMethod := "cash", status := "completed" }

/-- One cart line selling 2 units of the untracked product U. -/
def linesU : List InsertSaleItem :=
  [ { productId := "U", quantity := 2, unitPrice := 2, totalPrice := 4 } ]

/-- A customer with prior totals. -/
def customerC : Customer :=
  { id := "C1", name := "Alice", loyaltyPoints := 10, totalSpent := 100 }

/-- Store with product P and customer C1. -/
def storeCust : StoreState :=
  { emptyStore with products := [productP], customers := [customerC] }

/-- Sale header attached to customer C1 with total 25.50. -/
def saleHeaderCust : InsertSale :=
  { invoiceNumber := "INV-3", customerId := some "C1", userId := "u1",
    subtotal := 25.5, taxAmount := 0, discountAmount := 0, total := 25.5,
    paymentMethod := "card", status := "completed" }

/-- One cart line for the customer sale. -/
def linesCust : List InsertSaleItem :=
  [ { productId := "P", quantity := 1, unitPrice := 25.5, totalPrice := 25.5 } ]

/-- Products A, B and C of the top-products scenario. -/
def productA : Product :=
  { id := "A", name := "Alpha", sku := "SKU-A", costPrice := 1, price := 50,
    quantity := 9, minStockLevel := 0, trackStock := true, isActive := true,
    updatedAt := none }

def productB : Product :=
  { id := "B", name := "Beta", sku := "SKU-B", costPrice := 1, price := 50,
    quantity := 9, minStockLevel := 0, trackStock := true, isActive := true,
    updatedAt := none }

def productC : Product :=
  { id := "C", name := "Gamma", sku := "SKU-C", costPrice := 1, price := 80,
    quantity := 9, minStockLevel := 0, trackStock := true, isActive := true,
    updatedAt := none }

/-- Sale history of the top-products scenario: revenue 100 for A, 250 for B
(in two lines), 80 for C. -/
def topHistory : List SaleItem :=
  [ { id := "si1", saleId := "s1", productId := "A", quantity := 2,
      unitPrice := 50, totalPrice := 100 },
    { id := "si2", saleId := "s1", productId := "B", quantity := 3,
      unitPrice := 50, totalPrice := 150 },
    { id := "si3", saleId := "s2", productId := "C", quantity := 1,
      unitPrice := 80, totalPrice := 80 },
    { id := "si4", saleId := "s2", productId := "B", quantity := 1,
      unitPrice := 100, totalPrice := 100 } ]

/-- Store of the top-products scenario. -/
def storeTop : StoreState :=
  { emptyStore with
      products := [productA, productB, productC],
      saleItems := topHistory }

/-- The aggregate entry for product B in the scenario. -/
def entryB : TopEntry := { product := productB, totalSold := 4, revenue := 250 }

/-- A return request naming a product id absent from the store. -/
def ghostReturn : InsertReturn :=
  { saleId := "s1", productId := "ghost", quantity := 1,
    reason := "damaged", refundAmount := 5, userId := "u1" }


section MapLemmas

variable {α : Type} (key : α → String)

/-- A row returned by mapGetBy carries the looked-up key. -/
theorem mapGetBy_key {m : List α} {k : String} {x : α}
    (h : mapGetBy key m k = some x) : key x = k := by
  induction m with
  | nil => simp [mapGetBy] at h
  | cons y rest ih =>
    by_cases hy : key y = k
    · simp only [mapGetBy, if_pos hy, Option.some.injEq] at h
      rw [← h]; exact hy
    · simp only [mapGetBy, if_neg hy] at h
      exact ih h

/-- Map.set followed by Map.get of the same key yields the written row. -/
theorem mapGetBy_mapSetBy_self (m : List α) (x : α) :
    mapGetBy key (mapSetBy key x m) (key x) = some x := by
  induction m with
  | nil => simp [mapGetBy, mapSetBy]
  | cons y rest ih =>
    by_cases hy : key y = key x
    · simp [mapGetBy, mapSetBy, hy]
    · simp [mapGetBy, mapSetBy, hy, ih]

/-- Map.set leaves lookups of other keys unchanged. -/
theorem mapGetBy_mapSetBy_ne (m : List α) (x : α) {k : String}
    (hk : k ≠ key x) :
    mapGetBy key (mapSetBy key x m) k = mapGetBy key m k := by
  have hxk : ¬ key x = k := fun h => hk h.symm
  induction m with
  | nil => simp [mapGetBy, mapSetBy, hxk]
  | cons y rest ih =>
    by_cases hy : key y = key x
    · have hyk : ¬ key y = k := fun h => hxk (hy.symm.trans h)
      simp [mapGetBy, mapSetBy, hy, hyk, hxk, hk]
    · by_cases hyk : key y = k
      · simp [mapGetBy, mapSetBy, hy, hyk, hk]
      · simp [mapGetBy, mapSetBy, hy, hyk, hk, ih]

/-- Lookup commutes with a key-preserving row transformation. -/
theorem mapGetBy_map (f : α → α) (hf : ∀ y, key (f y) = key y)
    (m : List α) (k : String) :
    mapGetBy key (m.map f) k = (mapGetBy key m k).map f := by
  induction m with
  | nil => rfl
  | cons y rest ih =>
    by_cases hy : key y = k
    · simp [mapGetBy, hf, hy]
    · simp [mapGetBy, hf, hy, ih]

/-- mapSetBy never removes rows: the length is preserved or grows by one. -/
theorem length_mapSetBy (x : α) (m : List α) :
    (mapSetBy key x m).length = m.length ∨
    (mapSetBy key x m).length = m.length + 1 := by
  induction m with
  | nil => right; rfl
  | cons y rest ih =>
    by_cases hy : key y = key x
    · left; simp [mapSetBy, hy]
    · rcases ih with h | h
      · left; simp [mapSetBy, hy, h]
      · right; simp [mapSetBy, hy, h]

end MapLemmas

theorem movementSumL_append (l1 l2 : List StockMovement) (pid : String) :
    movementSumL (l1 ++ l2) pid = movementSumL l1 pid + movementSumL l2 pid := by
  simp [movementSumL, List.filter_append]

theorem movementSumL_single (mv : StockMovement) (pid : String) :
    movementSumL [mv] pid = if mv.productId = pid then mv.quantity else 0 := by
  by_cases h : mv.productId = pid <;> simp [movementSumL, h]

namespace MemStorage

/-- Unfolding equation of updateProductStock when the product is missing. -/
theorem updateProductStock_none {s : StoreState} {now : Nat} {id : String}
    {d : Int} {mt : String} {r : Option String} {u : Option String}
    (h : mapGetBy Product.id s.products id = none) :
    updateProductStock s now id d mt r u = (s, false) := by
  unfold updateProductStock
  rw [h]

/-- Unfolding equation of updateProductStock when the product exists and an
acting user is given. -/
theorem updateProductStock_some {s : StoreState} {now : Nat} {id : String}
    {d : Int} {mt : String} {r : Option String} {u : String} {p : Product}
    (h : mapGetBy Product.id s.products id = some p) :
    updateProductStock s now id d mt r (some u) =
      ({ s with
          products := mapSetBy Product.id
            { p with quantity := p.quantity + d, updatedAt := some now }
            s.products,
          stockMovements := s.stockMovements ++
            [{ id := freshId s.uuidCounter, productId := id,
               movementType := mt, quantity := d, reason := r,
               reference := none, userId := u, createdAt := now }],
          uuidCounter := s.uuidCounter + 1 }, true) := by
  unfold updateProductStock
  rw [h]

/-- updateProductStock with an acting user preserves the ledger drift of
every product. -/
theorem updateProductStock_drift (s : StoreState) (now : Nat) (id : String)
    (d : Int) (mt : String) (r : Option String) (u : String) (pid : String) :
    ledgerDrift ((updateProductStock s now id d mt r (some u)).1) pid =
      ledgerDrift s pid := by
  cases h : mapGetBy Product.id s.products id with
  | none => rw [updateProductStock_none h]
  | some p =>
    rw [updateProductStock_some h]
    have hkey : p.id = id := mapGetBy_key Product.id h
    by_cases hpid : pid = id
    · subst hpid
      have hself : mapGetBy Product.id
          (mapSetBy Product.id
            { p with quantity := p.quantity + d, updatedAt := some now }
            s.products) pid = some
            { p with quantity := p.quantity + d, updatedAt := some now } := by
        have := mapGetBy_mapSetBy_self Product.id s.products
          { p with quantity := p.quantity + d, updatedAt := some now }
        simpa [hkey] using this
      simp [ledgerDrift, qtyOf, qtyOfL, movementSum, hself, h,
        movementSumL_append, movementSumL_single]
    · have hne : mapGetBy Product.id
          (mapSetBy Product.id
            { p with quantity := p.quantity + d, updatedAt := some now }
            s.products) pid = mapGetBy Product.id s.products pid := by
        apply mapGetBy_mapSetBy_ne
        simpa [hkey] using hpid
      have hmv : ¬ ((id : String) = pid) := fun hh => hpid hh.symm
      simp [ledgerDrift, qtyOf, qtyOfL, movementSum, hne,
        movementSumL_append, movementSumL_single, hmv]

end MemStorage



/-- Overwriting non-quantity fields of a stored product row leaves every
looked-up quantity unchanged. -/
theorem qtyOfL_reprice (products : List Product) (rid : String)
    (product : Product) (c : ℚ) (now : Nat)
    (h : mapGetBy Product.id products rid = some product) (pid : String) :
    qtyOfL (mapSetBy Product.id
      (Product.mk product.id product.name product.sku c product.price
        product.quantity product.minStockLevel product.trackStock
        product.isActive (some now)) products) pid = qtyOfL products pid := by
  have hkey : product.id = rid := mapGetBy_key Product.id h
  by_cases hpid : pid = rid
  · subst hpid
    rw [← hkey] at h ⊢
    have hself := mapGetBy_mapSetBy_self Product.id products
      (Product.mk product.id product.name product.sku c product.price
        product.quantity product.minStockLevel product.trackStock
        product.isActive (some now))
    simp [qtyOfL, hself, h]
  · have hne := mapGetBy_mapSetBy_ne Product.id products
      (Product.mk product.id product.name product.sku c product.price
        product.quantity product.minStockLevel product.trackStock
        product.isActive (some now)) (k := pid) (by simpa [hkey] using hpid)
    simp [qtyOfL, hne]

namespace MemStorage

/-- The customer-aggregate update preserves the drift of every product. -/
theorem applyCustomerAggregates_drift (customerId : Option String)
    (total : ℚ) (s1 : StoreState) (pid : String) :
    ledgerDrift (applyCustomerAggregates customerId total s1) pid =
      ledgerDrift s1 pid := by
  unfold applyCustomerAggregates
  cases customerId with
  | none => rfl
  | some cid =>
    cases h : mapGetBy Customer.id s1.customers cid with
    | none => simp only [h]
    | some customer =>
      simp only [h]
      rfl

/-- The createSale per-line loop preserves the drift of every product. -/
theorem createSaleLoop_drift (now : Nat) (saleId invoiceNumber userId : String)
    (items : List InsertSaleItem) :
    ∀ (s : StoreState) (pid : String),
    ledgerDrift (createSaleLoop now saleId invoiceNumber userId items s) pid =
      ledgerDrift s pid := by
  induction items with
  | nil => intro s pid; rfl
  | cons itemData rest ih =>
    intro s pid
    simp only [createSaleLoop]
    exact (ih _ _).trans (updateProductStock_drift _ _ _ _ _ _ _ _)

/-- createSale preserves the drift of every product. -/
theorem createSale_drift (s : StoreState) (now : Nat)
    (insertSale : InsertSale) (items : List InsertSaleItem) (pid : String) :
    ledgerDrift ((createSale s now insertSale items).1) pid =
      ledgerDrift s pid := by
  unfold createSale
  dsimp only
  exact (applyCustomerAggregates_drift _ _ _ _).trans
    (createSaleLoop_drift _ _ _ _ _ _ _)

/-- createReturn preserves the drift of every product. -/
theorem createReturn_drift (s : StoreState) (now : Nat)
    (insertReturn : InsertReturn) (pid : String) :
    ledgerDrift ((createReturn s now insertReturn).1) pid =
      ledgerDrift s pid := by
  unfold createReturn
  dsimp only
  exact updateProductStock_drift _ _ _ _ _ _ _ _

/-- The receivePurchaseOrder per-item loop preserves the drift. -/
theorem receiveLoop_drift (now : Nat) (orderNumber userId : String)
    (items : List PurchaseOrderItem) :
    ∀ (s : StoreState) (pid : String),
    ledgerDrift (receiveLoop now orderNumber userId items s) pid =
      ledgerDrift s pid := by
  induction items with
  | nil => intro s pid; rfl
  | cons item rest ih =>
    intro s pid
    simp only [receiveLoop]
    cases hp : mapGetBy Product.id
        ((updateProductStock s now item.productId item.quantity "purchase"
          (some ("Purchase Order " ++ orderNumber))
          (some userId)).1).products item.productId with
    | none =>
      simp only [hp]
      exact (ih _ _).trans (updateProductStock_drift _ _ _ _ _ _ _ _)
    | some product =>
      simp only [hp]
      refine (ih _ _).trans (Eq.trans ?_ (updateProductStock_drift
        s now item.productId item.quantity "purchase"
        (some ("Purchase Order " ++ orderNumber)) userId pid))
      simp only [ledgerDrift, qtyOf, movementSum]
      rw [qtyOfL_reprice _ _ _ _ _ hp]

/-- receivePurchaseOrder preserves the drift of every product. -/
theorem receivePurchaseOrder_drift (s : StoreState) (now : Nat)
    (oid userId : String) (pid : String) :
    ledgerDrift ((receivePurchaseOrder s now oid userId).1) pid =
      ledgerDrift s pid := by
  unfold receivePurchaseOrder
  cases ho : mapGetBy PurchaseOrder.id s.purchaseOrders oid with
  | none => rfl
  | some order =>
    dsimp only
    by_cases hst : order.status = "received"
    · rw [if_pos hst]
    · rw [if_neg hst]
      exact receiveLoop_drift _ _ _ _ _ _

end MemStorage

section AggregationLemmas

/-- Keys present after a Map.set are the old keys plus the written key. -/
theorem mem_keys_mapSetBy {α : Type} (key : α → String) (x : α)
    (m : List α) {k : String} (h : k ∈ (mapSetBy key x m).map key) :
    k ∈ m.map key ∨ k = key x := by
  induction m with
  | nil => simpa [mapSetBy] using h
  | cons y rest ih =>
    by_cases hy : key y = key x
    · simp only [mapSetBy, if_pos hy, List.map_cons, List.mem_cons] at h
      rcases h with h | h
      · right; exact h
      · left; simp [h]
    · simp only [mapSetBy, if_neg hy, List.map_cons, List.mem_cons] at h
      rcases h with h | h
      · left; simp [h]
      · rcases ih h with h1 | h1
        · left; simp [h1]
        · right; exact h1

/-- Map.set preserves distinctness of keys. -/
theorem nodup_keys_mapSetBy {α : Type} (key : α → String) (x : α)
    (m : List α) (h : (m.map key).Nodup) :
    ((mapSetBy key x m).map key).Nodup := by
  induction m with
  | nil => simp [mapSetBy]
  | cons y rest ih =>
    rw [List.map_cons, List.nodup_cons] at h
    by_cases hy : key y = key x
    · simp only [mapSetBy, if_pos hy, List.map_cons, List.nodup_cons]
      exact ⟨hy ▸ h.1, h.2⟩
    · simp only [mapSetBy, if_neg hy, List.map_cons, List.nodup_cons]
      refine ⟨fun hmem => ?_, ih h.2⟩
      rcases mem_keys_mapSetBy key x rest hmem with h1 | h1
      · exact h.1 h1
      · exact hy h1

/-- With distinct keys, every member is found under its own key. -/
theorem mapGetBy_of_mem_nodup {α : Type} (key : α → String)
    {m : List α} (h : (m.map key).Nodup) {e : α} (he : e ∈ m) :
    mapGetBy key m (key e) = some e := by
  induction m with
  | nil => cases he
  | cons y rest ih =>
    rw [List.map_cons, List.nodup_cons] at h
    rcases List.mem_cons.mp he with rfl | he1
    · simp [mapGetBy]
    · have hne : ¬ key y = key e := by
        intro hk
        exact h.1 (hk ▸ List.mem_map_of_mem key he1)
      simp only [mapGetBy, if_neg hne]
      exact ih h.2 he1

/-- The aggregation loop keeps the accumulator keys distinct. -/
theorem accumulateSales_nodup (items : List SaleItem) :
    ∀ acc : List AggEntry, ((acc.map AggEntry.productId).Nodup) →
    (((accumulateSales items acc).map AggEntry.productId).Nodup) := by
  induction items with
  | nil => intro acc h; exact h
  | cons item rest ih =>
    intro acc h
    simp only [accumulateSales]
    exact ih _ (nodup_keys_mapSetBy AggEntry.productId _ acc h)

/-- Sold totals accumulated by the loop: the stored count under any key grows
by exactly the quantity sum of the processed items for that key. -/
theorem accumulateSales_sold (items : List SaleItem) :
    ∀ (acc : List AggEntry) (pid : String),
    aggSoldOf (mapGetBy AggEntry.productId (accumulateSales items acc) pid) =
      aggSoldOf (mapGetBy AggEntry.productId acc pid) + sumSold items pid := by
  induction items with
  | nil => intro acc pid; simp [accumulateSales, sumSold]
  | cons item rest ih =>
    intro acc pid
    simp only [accumulateSales]
    rw [ih]
    by_cases hpid : item.productId = pid
    · subst hpid
      have hself := mapGetBy_mapSetBy_self AggEntry.productId acc
        (AggEntry.mk item.productId
          (SalesAgg.mk
            ((match mapGetBy AggEntry.productId acc item.productId with
              | some e => e.agg
              | none => SalesAgg.mk 0 0).totalSold + item.quantity)
            ((match mapGetBy AggEntry.productId acc item.productId with
              | some e => e.agg
              | none => SalesAgg.mk 0 0).revenue + item.totalPrice)))
      rw [hself]
      cases hacc : mapGetBy AggEntry.productId acc item.productId with
      | none => simp [hacc, aggSoldOf, sumSold, List.filter_cons]
      | some e =>
        simp [hacc, aggSoldOf, sumSold, List.filter_cons]
        ring
    · have hne := mapGetBy_mapSetBy_ne AggEntry.productId acc
        (AggEntry.mk item.productId
          (SalesAgg.mk
            ((match mapGetBy AggEntry.productId acc item.productId with
              | some e => e.agg
              | none => SalesAgg.mk 0 0).totalSold + item.quantity)
            ((match mapGetBy AggEntry.productId acc item.productId with
              | some e => e.agg
              | none => SalesAgg.mk 0 0).revenue + item.totalPrice)))
        (k := pid) (fun hk => hpid hk.symm)
      rw [hne]
      have : sumSold (item :: rest) pid = sumSold rest pid := by
        simp [sumSold, List.filter_cons, hpid]
      rw [this]

/-- Revenue accumulated by the loop, analogous to accumulateSales_sold. -/
theorem accumulateSales_revenue (items : List SaleItem) :
    ∀ (acc : List AggEntry) (pid : String),
    aggRevenueOf (mapGetBy AggEntry.productId (accumulateSales items acc) pid) =
      aggRevenueOf (mapGetBy AggEntry.productId acc pid) +
        sumRevenue items pid := by
  induction items with
  | nil => intro acc pid; simp [accumulateSales, sumRevenue]
  | cons item rest ih =>
    intro acc pid
    simp only [accumulateSales]
    rw [ih]
    by_cases hpid : item.productId = pid
    · subst hpid
      have hself := mapGetBy_mapSetBy_self AggEntry.productId acc
        (AggEntry.mk item.productId
          (SalesAgg.mk
            ((match mapGetBy AggEntry.productId acc item.productId with
              | some e => e.agg
              | none => SalesAgg.mk 0 0).totalSold + item.quantity)
            ((match mapGetBy AggEntry.productId acc item.productId with
              | some e => e.agg
              | none => SalesAgg.mk 0 0).revenue + item.totalPrice)))
      rw [hself]
      cases hacc : mapGetBy AggEntry.productId acc item.productId with
      | none => simp [hacc, aggRevenueOf, sumRevenue, List.filter_cons]
      | some e =>
        simp [hacc, aggRevenueOf, sumRevenue, List.filter_cons]
        ring
    · have hne := mapGetBy_mapSetBy_ne AggEntry.productId acc
        (AggEntry.mk item.productId
          (SalesAgg.mk
            ((match mapGetBy AggEntry.productId acc item.productId with
              | some e => e.agg
              | none => SalesAgg.mk 0 0).totalSold + item.quantity)
            ((match mapGetBy AggEntry.productId acc item.productId with
              | some e => e.agg
              | none => SalesAgg.mk 0 0).revenue + item.totalPrice)))
        (k := pid) (fun hk => hpid hk.symm)
      rw [hne]
      have : sumRevenue (item :: rest) pid = sumRevenue rest pid := by
        simp [sumRevenue, List.filter_cons, hpid]
      rw [this]

/-- Membership through the stable insertion. -/
theorem mem_insertByRevenue {a b : TopEntry} {l : List TopEntry} :
    a ∈ insertByRevenue b l ↔ a = b ∨ a ∈ l := by
  induction l with
  | nil => simp [insertByRevenue]
  | cons c rest ih =>
    by_cases h : b.revenue < c.revenue
    · simp only [insertByRevenue, if_pos h, List.mem_cons, ih]
      tauto
    · simp only [insertByRevenue, if_neg h, List.mem_cons]

/-- Membership through the stable sort. -/
theorem mem_sortByRevenueDesc {a : TopEntry} {l : List TopEntry} :
    a ∈ sortByRevenueDesc l ↔ a ∈ l := by
  induction l with
  | nil => simp [sortByRevenueDesc]
  | cons c rest ih =>
    simp only [sortByRevenueDesc, mem_insertByRevenue, List.mem_cons, ih]

/-- Inserting into a revenue-descending list keeps it descending. -/
theorem pairwise_insertByRevenue (a : TopEntry) (l : List TopEntry)
    (h : l.Pairwise (fun x y => y.revenue ≤ x.revenue)) :
    (insertByRevenue a l).Pairwise (fun x y => y.revenue ≤ x.revenue) := by
  induction l with
  | nil => simp [insertByRevenue]
  | cons c rest ih =>
    rw [List.pairwise_cons] at h
    by_cases hac : a.revenue < c.revenue
    · rw [insertByRevenue, if_pos hac, List.pairwise_cons]
      refine ⟨fun b hb => ?_, ih h.2⟩
      rcases mem_insertByRevenue.mp hb with rfl | hb1
      · exact le_of_lt hac
      · exact h.1 b hb1
    · rw [insertByRevenue, if_neg hac, List.pairwise_cons]
      refine ⟨fun b hb => ?_, List.pairwise_cons.mpr h⟩
      rcases List.mem_cons.mp hb with rfl | hb1
      · exact not_lt.mp hac
      · exact le_trans (h.1 b hb1) (not_lt.mp hac)

/-- The stable sort produces a revenue-descending list. -/
theorem pairwise_sortByRevenueDesc (l : List TopEntry) :
    (sortByRevenueDesc l).Pairwise (fun x y => y.revenue ≤ x.revenue) := by
  induction l with
  | nil => simp [sortByRevenueDesc]
  | cons c rest ih => exact pairwise_insertByRevenue c _ ih

end AggregationLemmas

namespace MemStorage

/-- updateProductStock never touches the customers table. -/
theorem updateProductStock_customers (s : StoreState) (now : Nat)
    (id : String) (d : Int) (mt : String) (r : Option String)
    (u : Option String) :
    ((updateProductStock s now id d mt r u).1).customers = s.customers := by
  cases h : mapGetBy Product.id s.products id with
  | none => rw [updateProductStock_none h]
  | some p =>
    cases u with
    | some uid => rw [updateProductStock_some h]
    | none =>
      unfold updateProductStock
      rw [h]

/-- The createSale per-line loop never touches the customers table. -/
theorem createSaleLoop_customers (now : Nat)
    (saleId invoiceNumber userId : String) (items : List InsertSaleItem) :
    ∀ s : StoreState,
    (createSaleLoop now saleId invoiceNumber userId items s).customers =
      s.customers := by
  induction items with
  | nil => intro s; rfl
  | cons itemData rest ih =>
    intro s
    simp only [createSaleLoop]
    rw [ih]
    exact updateProductStock_customers _ _ _ _ _ _ _

end MemStorage

namespace DatabaseStorage

/-- In the DatabaseStorage createSale loop, a line whose product is untracked
leaves that product row unchanged and writes no movement touching it. -/
theorem createSaleLoop_untracked (now : Nat) (saleId userId : String)
    (items : List InsertSaleItem) :
    ∀ (s : StoreState) (pid : String) (p : Product),
    mapGetBy Product.id s.products pid = some p → p.trackStock = false →
    mapGetBy Product.id (createSaleLoop now saleId userId items s).products
      pid = some p ∧
    (createSaleLoop now saleId userId items s).stockMovements.filter
      (fun m => decide (m.productId = pid)) =
      s.stockMovements.filter (fun m => decide (m.productId = pid)) := by
  induction items with
  | nil => intro s pid p hp ht; exact ⟨hp, rfl⟩
  | cons item rest ih =>
    intro s pid p hp ht
    simp only [createSaleLoop]
    cases hq : mapGetBy Product.id s.products item.productId with
    | none =>
      simp only [hq]
      exact ih _ pid p hp ht
    | some product =>
      simp only [hq]
      by_cases hpid : item.productId = pid
      · have hpp : product = p := by
          rw [hpid] at hq
          rw [hq] at hp
          exact Option.some.injEq product p ▸ hp
        rw [hpp, ht]
        simp only [Bool.false_eq_true, if_false]
        exact ih _ pid p hp ht
      · cases htrack : product.trackStock with
        | false =>
          simp only [Bool.false_eq_true, if_false]
          exact ih _ pid p hp ht
        | true =>
          simp only [if_true]
          have hkeyfix : ∀ q : Product,
              (if q.id = item.productId then
                Product.mk q.id q.name q.sku q.costPrice q.price
                  (product.quantity - item.quantity) q.minStockLevel
                  q.trackStock q.isActive q.updatedAt
              else q).id = q.id := by
            intro q
            by_cases hid : q.id = item.productId <;> simp [hid]
          have hlook : mapGetBy Product.id
              (s.products.map (fun q =>
                if q.id = item.productId then
                  Product.mk q.id q.name q.sku q.costPrice q.price
                    (product.quantity - item.quantity) q.minStockLevel
                    q.trackStock q.isActive q.updatedAt
                else q)) pid = some p := by
            rw [mapGetBy_map Product.id _ hkeyfix, hp]
            have hpir : ¬ p.id = item.productId := by
              rw [mapGetBy_key Product.id hp]
              exact fun hk => hpid hk.symm
            simp [hpir]
          constructor
          · exact (ih _ pid p hlook ht).1
          · refine ((ih _ pid p hlook ht).2).trans ?_
            simp [List.filter_append, List.filter_cons, hpid]
      
end DatabaseStorage

/-- Creating one sale item row in the DatabaseStorage loop grows the
sale-item table by exactly one row per line. -/
theorem db_createSaleLoop_saleItems_length (now : Nat) (saleId userId : String)
    (items : List InsertSaleItem) :
    ∀ s : StoreState,
    (DatabaseStorage.createSaleLoop now saleId userId items s).saleItems.length
      = s.saleItems.length + items.length := by
  induction items with
  | nil => intro s; rfl
  | cons item rest ih =>
    intro s
    simp only [DatabaseStorage.createSaleLoop]
    cases hq : mapGetBy Product.id s.products item.productId with
    | none =>
      simp only [hq]
      rw [ih]
      simp [List.length_append]
      omega
    | some product =>
      simp only [hq]
      cases htrack : product.trackStock with
      | false =>
        simp only [Bool.false_eq_true, if_false]
        rw [ih]
        simp [List.length_append]
        omega
      | true =>
        simp only [if_true]
        rw [ih]
        simp [List.length_append]
        omega

/-- Every single ledger operation preserves the drift of every product. -/
theorem applyOp_drift (s : StoreState) (op : LedgerOp) (pid : String) :
    ledgerDrift (applyOp s op) pid = ledgerDrift s pid := by
  cases op with
  | saleOp now insertSale items =>
    exact MemStorage.createSale_drift s now insertSale items pid
  | adjustOp now productId delta reason userId =>
    exact MemStorage.updateProductStock_drift s now productId delta
      "adjustment" reason userId pid
  | returnOp now insertReturn =>
    exact MemStorage.createReturn_drift s now insertReturn pid
  | receiveOp now orderId userId =>
    exact MemStorage.receivePurchaseOrder_drift s now orderId userId pid

/-- Any finite sequence of ledger operations preserves the drift. -/
theorem runOps_drift (ops : List LedgerOp) :
    ∀ (s : StoreState) (pid : String),
    ledgerDrift (runOps s ops) pid = ledgerDrift s pid := by
  induction ops with
  | nil => intro s pid; rfl
  | cons op rest ih =>
    intro s pid
    simp only [runOps]
    exact (ih _ _).trans (applyOp_drift s op pid)

/-- Claim C1, evaluated at the failing input: on tracked product P with
quantity 5, MemStorage.updateProductStock with sale delta -10 succeeds,
leaves quantity -5 and writes a StockMovement — instead of failing with an
InsufficientStock condition, keeping quantity 5 and writing no movement as
the claim requires. -/
theorem c1_updateProductStock_drives_tracked_quantity_negative :
    productP.trackStock = true ∧
    qtyOf storeP "P" = 5 ∧
    (MemStorage.updateProductStock storeP 0 "P" (-10) "sale" none
      (some "u1")).2 = true ∧
    qtyOf (MemStorage.updateProductStock storeP 0 "P" (-10) "sale" none
      (some "u1")).1 "P" = -5 ∧
    ((MemStorage.updateProductStock storeP 0 "P" (-10) "sale" none
      (some "u1")).1).stockMovements.length = 1 := by
  decide

/-- Claim C2, evaluated at the failing input: a two-line sale whose second
line references the nonexistent product id ghost is not rejected by
MemStorage.createSale — the Sale header and both SaleItems are persisted,
product P is decremented from 5 to 2 and one StockMovement is written, so
the attempt is not atomic. -/
theorem c2_createSale_missing_product_not_atomic :
    mapGetBy Product.id storeP.products "ghost" = none ∧
    ((MemStorage.createSale storeP 0 saleHeaderPG linesPG).1).sales.length
      = 1 ∧
    ((MemStorage.createSale storeP 0 saleHeaderPG linesPG).1).saleItems.length
      = 2 ∧
    qtyOf (MemStorage.createSale storeP 0 saleHeaderPG linesPG).1 "P" = 2 ∧
    ((MemStorage.createSale storeP 0 saleHeaderPG
      linesPG).1).stockMovements.length = 1 := by
  decide

/-- Claim C10: when createReturn is called with a product id absent from the
store, the Return row is persisted and returned to the caller, while the
product table and the stock-movement log are left untouched. -/
theorem c10_createReturn_missing_product_persists_return (s : StoreState)
    (now : Nat) (r : InsertReturn)
    (h : mapGetBy Product.id s.products r.productId = none) :
    ((MemStorage.createReturn s now r).1).returns =
      s.returns ++ [(MemStorage.createReturn s now r).2] ∧
    ((MemStorage.createReturn s now r).1).products = s.products ∧
    ((MemStorage.createReturn s now r).1).stockMovements =
      s.stockMovements := by
  unfold MemStorage.createReturn MemStorage.updateProductStock
  dsimp only
  rw [h]
  exact ⟨rfl, rfl, rfl⟩

/-- Witness for claim C10 at a concrete store and return request. -/
theorem c10_createReturn_missing_product_persists_return_witness :
    ((MemStorage.createReturn storeP 0 ghostReturn).1).returns =
      storeP.returns ++ [(MemStorage.createReturn storeP 0 ghostReturn).2] ∧
    ((MemStorage.createReturn storeP 0 ghostReturn).1).products =
      storeP.products ∧
    ((MemStorage.createReturn storeP 0 ghostReturn).1).stockMovements =
      storeP.stockMovements :=
  c10_createReturn_missing_product_persists_return storeP 0 ghostReturn
    (by decide)

/-- Claim C3 counterexample: on DatabaseStorage, a manual stock adjustment of
+3 on tracked product P (quantity 5, empty movement log) leaves quantity 3
while the recorded movement deltas sum to 3, so the final quantity is not the
initial quantity plus the movement sum — the UPDATE overwrites the quantity
with the delta. -/
theorem c3_db_adjustment_breaks_ledger_invariant :
    productP.trackStock = true ∧
    storeP.stockMovements = [] ∧
    qtyOf storeP "P" = 5 ∧
    movementSum (DatabaseStorage.updateProductStock storeP 0 "P" 3
      "adjustment" none (some "u1")).1 "P" = 3 ∧
    qtyOf (DatabaseStorage.updateProductStock storeP 0 "P" 3 "adjustment"
      none (some "u1")).1 "P" ≠
      qtyOf storeP "P" + movementSum (DatabaseStorage.updateProductStock
        storeP 0 "P" 3 "adjustment" none (some "u1")).1 "P" := by
  decide

/-- Claim C3 (amended): on MemStorage the invariant holds — for every tracked
product of a store whose movement log starts empty, after any finite sequence
of ledger operations (sales, manual adjustments, returns, purchase-order
receipts) the quantity equals the initial quantity plus the sum of all
recorded StockMovement deltas for that product. -/
theorem c3_mem_ledger_invariant (s0 : StoreState) (ops : List LedgerOp)
    (pid : String) (p : Product)
    (hp : mapGetBy Product.id s0.products pid = some p)
    (ht : p.trackStock = true)
    (hm : s0.stockMovements = []) :
    qtyOf (runOps s0 ops) pid =
      p.quantity + movementSum (runOps s0 ops) pid := by
  have hd := runOps_drift ops s0 pid
  have hq0 : qtyOf s0 pid = p.quantity := by simp [qtyOf, qtyOfL, hp]
  have hm0 : movementSum s0 pid = 0 := by
    simp [movementSum, hm, movementSumL]
  unfold ledgerDrift at hd
  omega

/-- Witness for claim C3: a concrete run of an adjustment followed by a
return on product P. -/
theorem c3_mem_ledger_invariant_witness :
    qtyOf (runOps storeP [LedgerOp.adjustOp 1 "P" 3 none "u1",
      LedgerOp.returnOp 2 (InsertReturn.mk "s1" "P" 2 "damaged" 20 "u1")])
      "P" =
    productP.quantity + movementSum (runOps storeP
      [LedgerOp.adjustOp 1 "P" 3 none "u1",
       LedgerOp.returnOp 2 (InsertReturn.mk "s1" "P" 2 "damaged" 20 "u1")])
      "P" :=
  c3_mem_ledger_invariant storeP
    [LedgerOp.adjustOp 1 "P" 3 none "u1",
     LedgerOp.returnOp 2 (InsertReturn.mk "s1" "P" 2 "damaged" 20 "u1")]
    "P" productP rfl rfl rfl

/-- Claim C4 counterexample: the two implementations disagree on
updateProductStock — from the same store holding product P with quantity 5,
a call with delta 3 yields quantity 8 in MemStorage but quantity 3 in
DatabaseStorage. -/
theorem c4_updateProductStock_implementations_disagree :
    qtyOf storeP "P" = 5 ∧
    qtyOf (MemStorage.updateProductStock storeP 0 "P" 3 "adjustment" none
      (some "u1")).1 "P" = 8 ∧
    qtyOf (DatabaseStorage.updateProductStock storeP 0 "P" 3 "adjustment"
      none (some "u1")).1 "P" = 3 ∧
    qtyOf (MemStorage.updateProductStock storeP 0 "P" 3 "adjustment" none
      (some "u1")).1 "P" ≠
    qtyOf (DatabaseStorage.updateProductStock storeP 0 "P" 3 "adjustment"
      none (some "u1")).1 "P" := by
  decide

/-- Claim C4 (amended): for an existing product, MemStorage adds the delta to
the stored quantity, stamps updatedAt and appends a movement carrying the
delta; DatabaseStorage appends the same movement but overwrites the stored
quantity with the delta and stamps nothing, so the two implementations agree
on the resulting quantity exactly when the old quantity was 0. -/
theorem c4_updateProductStock_characterization (s : StoreState) (now : Nat)
    (id : String) (d : Int) (mt : String) (r : Option String) (u : String)
    (p : Product) (hp : mapGetBy Product.id s.products id = some p) :
    qtyOf (MemStorage.updateProductStock s now id d mt r (some u)).1 id =
      p.quantity + d ∧
    (mapGetBy Product.id ((MemStorage.updateProductStock s now id d mt r
      (some u)).1).products id).map Product.updatedAt = some (some now) ∧
    ((MemStorage.updateProductStock s now id d mt r
      (some u)).1).stockMovements = s.stockMovements ++
      [StockMovement.mk (freshId s.uuidCounter) id mt d r none u now] ∧
    qtyOf (DatabaseStorage.updateProductStock s now id d mt r (some u)).1 id
      = d ∧
    ((DatabaseStorage.updateProductStock s now id d mt r
      (some u)).1).stockMovements = s.stockMovements ++
      [StockMovement.mk (freshId s.uuidCounter) id mt d r none u now] ∧
    (qtyOf (MemStorage.updateProductStock s now id d mt r (some u)).1 id =
      qtyOf (DatabaseStorage.updateProductStock s now id d mt r (some u)).1 id
      ↔ p.quantity = 0) := by
  have hkey : p.id = id := mapGetBy_key Product.id hp
  have hself := mapGetBy_mapSetBy_self Product.id s.products
    (Product.mk p.id p.name p.sku p.costPrice p.price (p.quantity + d)
      p.minStockLevel p.trackStock p.isActive (some now))
  have hmemq : qtyOf (MemStorage.updateProductStock s now id d mt r
      (some u)).1 id = p.quantity + d := by
    rw [MemStorage.updateProductStock_some hp, ← hkey]
    simp [qtyOf, qtyOfL, hself]
  have hkeyfix : ∀ q : Product,
      (if q.id = id then Product.mk q.id q.name q.sku q.costPrice q.price d
        q.minStockLevel q.trackStock q.isActive q.updatedAt else q).id
      = q.id := by
    intro q
    by_cases hq : q.id = id <;> simp [hq]
  have hdbq : qtyOf (DatabaseStorage.updateProductStock s now id d mt r
      (some u)).1 id = d := by
    unfold DatabaseStorage.updateProductStock
    dsimp only
    rw [qtyOf, qtyOfL, mapGetBy_map Product.id _ hkeyfix, hp]
    simp [hkey]
  refine ⟨hmemq, ?_, ?_, hdbq, ?_, ?_⟩
  · rw [MemStorage.updateProductStock_some hp, ← hkey]
    simp [hself]
  · rw [MemStorage.updateProductStock_some hp]
  · unfold DatabaseStorage.updateProductStock
    dsimp only
  · rw [hmemq, hdbq]
    omega

/-- Witness for claim C4 at product P with quantity 5 and delta 3. -/
theorem c4_updateProductStock_characterization_witness :
    qtyOf (MemStorage.updateProductStock storeP 0 "P" 3 "adjustment" none
      (some "u1")).1 "P" = productP.quantity + 3 ∧
    (mapGetBy Product.id ((MemStorage.updateProductStock storeP 0 "P" 3
      "adjustment" none (some "u1")).1).products "P").map Product.updatedAt
      = some (some 0) ∧
    ((MemStorage.updateProductStock storeP 0 "P" 3 "adjustment" none
      (some "u1")).1).stockMovements = storeP.stockMovements ++
      [StockMovement.mk (freshId storeP.uuidCounter) "P" "adjustment" 3 none
        none "u1" 0] ∧
    qtyOf (DatabaseStorage.updateProductStock storeP 0 "P" 3 "adjustment"
      none (some "u1")).1 "P" = 3 ∧
    ((DatabaseStorage.updateProductStock storeP 0 "P" 3 "adjustment" none
      (some "u1")).1).stockMovements = storeP.stockMovements ++
      [StockMovement.mk (freshId storeP.uuidCounter) "P" "adjustment" 3 none
        none "u1" 0] ∧
    (qtyOf (MemStorage.updateProductStock storeP 0 "P" 3 "adjustment" none
      (some "u1")).1 "P" =
     qtyOf (DatabaseStorage.updateProductStock storeP 0 "P" 3 "adjustment"
      none (some "u1")).1 "P" ↔ productP.quantity = 0) :=
  c4_updateProductStock_characterization storeP 0 "P" 3 "adjustment" none
    "u1" productP rfl

/-- Claim C5 counterexample: receiving the cancelled order O1 does not fail —
MemStorage.receivePurchaseOrder returns true, flips the status to received,
applies the 20-unit stock delta to product P and writes a movement. -/
theorem c5_cancelled_order_is_received :
    (mapGetBy PurchaseOrder.id storeCancelled.purchaseOrders "O1").map
      PurchaseOrder.status = some "cancelled" ∧
    (MemStorage.receivePurchaseOrder storeCancelled 7 "O1" "u1").2 = true ∧
    (mapGetBy PurchaseOrder.id ((MemStorage.receivePurchaseOrder
      storeCancelled 7 "O1" "u1").1).purchaseOrders "O1").map
      PurchaseOrder.status = some "received" ∧
    qtyOf (MemStorage.receivePurchaseOrder storeCancelled 7 "O1" "u1").1 "P"
      = 22 ∧
    ((MemStorage.receivePurchaseOrder storeCancelled 7 "O1"
      "u1").1).stockMovements.length = 1 := by
  decide

/-- Claim C5 (amended): MemStorage.receivePurchaseOrder fails with no state
change when the order is missing or already received, but its guard does not
cover the cancelled status; DatabaseStorage.receivePurchaseOrder applies no
status guard at all — it reports success for every call and never mutates
products or writes a movement. -/
theorem c5_receive_guard_characterization :
    (∀ (s : StoreState) (now : Nat) (oid u : String)
      (order : PurchaseOrder),
      mapGetBy PurchaseOrder.id s.purchaseOrders oid = some order →
      order.status = "received" →
      MemStorage.receivePurchaseOrder s now oid u = (s, false)) ∧
    (∀ (s : StoreState) (now : Nat) (oid u : String),
      (DatabaseStorage.receivePurchaseOrder s now oid u).2 = true ∧
      ((DatabaseStorage.receivePurchaseOrder s now oid u).1).products =
        s.products ∧
      ((DatabaseStorage.receivePurchaseOrder s now oid u).1).stockMovements =
        s.stockMovements) := by
  constructor
  · intro s now oid u order ho hst
    unfold MemStorage.receivePurchaseOrder
    rw [ho]
    dsimp only
    rw [if_pos hst]
  · intro s now oid u
    exact ⟨rfl, rfl, rfl⟩

/-- Witness for claim C5: receiving the already received order O1 fails and
leaves the store unchanged. -/
theorem c5_receive_guard_characterization_witness :
    MemStorage.receivePurchaseOrder storeReceived 9 "O1" "u1" =
      (storeReceived, false) :=
  c5_receive_guard_characterization.1 storeReceived 9 "O1" "u1"
    receivedOrder rfl rfl

/-- Claim C6 (Scenario C): receiving the pending order O1 with one line of 20
units at unit cost 4.00 against product P (quantity 2, cost price 3.50)
succeeds and yields quantity 22, cost price 4.00, exactly one purchase
movement with delta +20, status received and receivedAt stamped. -/
theorem c6_receive_pending_order_scenarioC :
    (MemStorage.receivePurchaseOrder storePending 5 "O1" "u1").2 = true ∧
    qtyOf (MemStorage.receivePurchaseOrder storePending 5 "O1" "u1").1 "P"
      = 22 ∧
    (mapGetBy Product.id ((MemStorage.receivePurchaseOrder storePending 5
      "O1" "u1").1).products "P").map Product.costPrice = some 4 ∧
    ((MemStorage.receivePurchaseOrder storePending 5 "O1"
      "u1").1).stockMovements.map (fun m => (m.movementType, m.quantity)) =
      [("purchase", 20)] ∧
    (mapGetBy PurchaseOrder.id ((MemStorage.receivePurchaseOrder storePending
      5 "O1" "u1").1).purchaseOrders "O1").map PurchaseOrder.status =
      some "received" ∧
    (mapGetBy PurchaseOrder.id ((MemStorage.receivePurchaseOrder storePending
      5 "O1" "u1").1).purchaseOrders "O1").map PurchaseOrder.receivedAt =
      some (some 5) := by
  refine ⟨by decide, by decide, ?_, by decide, by decide, by decide⟩
  simp +decide only [MemStorage.receivePurchaseOrder, MemStorage.receiveLoop,
    MemStorage.updateProductStock, storePending, pendingOrder, orderItemP,
    productP2, emptyStore, mapGetBy, mapSetBy, freshId, Option.map]

/-- Claim C7 counterexample: MemStorage.createSale calls the ledger for an
untracked product too — selling 2 units of untracked product U (quantity 5)
decrements its quantity to 3 and writes a StockMovement. -/
theorem c7_mem_createSale_untracked_mutates_stock :
    untrackedProduct.trackStock = false ∧
    qtyOf storeU "U" = 5 ∧
    qtyOf (MemStorage.createSale storeU 0 saleHeaderU linesU).1 "U" = 3 ∧
    ((MemStorage.createSale storeU 0 saleHeaderU
      linesU).1).stockMovements.length = 1 := by
  decide

/-- Claim C7 (amended): in DatabaseStorage.createSale an untracked product is
skipped by the ledger — its row is unchanged, no movement touching it is
written, and every cart line still persists its SaleItem.  (MemStorage calls
the ledger for every line regardless of trackStock, see the
counterexample.) -/
theorem c7_db_createSale_untracked_skips_ledger (s : StoreState) (now : Nat)
    (insertSale : InsertSale) (items : List InsertSaleItem) (pid : String)
    (p : Product) (hp : mapGetBy Product.id s.products pid = some p)
    (ht : p.trackStock = false) :
    mapGetBy Product.id ((DatabaseStorage.createSale s now insertSale
      items).1).products pid = some p ∧
    ((DatabaseStorage.createSale s now insertSale
      items).1).stockMovements.filter (fun m => decide (m.productId = pid)) =
      s.stockMovements.filter (fun m => decide (m.productId = pid)) ∧
    ((DatabaseStorage.createSale s now insertSale items).1).saleItems.length
      = s.saleItems.length + items.length := by
  unfold DatabaseStorage.createSale
  dsimp only
  refine ⟨?_, ?_, ?_⟩
  · exact (DatabaseStorage.createSaleLoop_untracked now _ _ items _ pid p
      (by exact hp) ht).1
  · exact (DatabaseStorage.createSaleLoop_untracked now _ _ items _ pid p
      (by exact hp) ht).2
  · exact db_createSaleLoop_saleItems_length now _ _ items _

/-- Witness for claim C7 on the untracked product U. -/
theorem c7_db_createSale_untracked_skips_ledger_witness :
    mapGetBy Product.id ((DatabaseStorage.createSale storeU 0 saleHeaderU
      linesU).1).products "U" = some untrackedProduct ∧
    ((DatabaseStorage.createSale storeU 0 saleHeaderU
      linesU).1).stockMovements.filter (fun m => decide (m.productId = "U")) =
      storeU.stockMovements.filter (fun m => decide (m.productId = "U")) ∧
    ((DatabaseStorage.createSale storeU 0 saleHeaderU linesU).1).saleItems.length
      = storeU.saleItems.length + linesU.length :=
  c7_db_createSale_untracked_skips_ledger storeU 0 saleHeaderU linesU "U"
    untrackedProduct rfl rfl

/-- Claim C8: when the sale header carries an existing customer, createSale
adds the sale total to totalSpent and the floor of the total to
loyaltyPoints; when no customer is attached, the customer table is
unchanged. -/
theorem c8_createSale_customer_aggregates (s : StoreState) (now : Nat)
    (insertSale : InsertSale) (items : List InsertSaleItem) :
    (∀ (cid : String) (c : Customer), insertSale.customerId = some cid →
      mapGetBy Customer.id s.customers cid = some c →
      mapGetBy Customer.id ((MemStorage.createSale s now insertSale
        items).1).customers cid = some (Customer.mk c.id c.name
          (c.loyaltyPoints + Rat.floor insertSale.total)
          (c.totalSpent + insertSale.total))) ∧
    (insertSale.customerId = none →
      ((MemStorage.createSale s now insertSale items).1).customers =
        s.customers) := by
  constructor
  · intro cid c hcid hc
    unfold MemStorage.createSale MemStorage.applyCustomerAggregates
    dsimp only
    rw [hcid]
    rw [MemStorage.createSaleLoop_customers now (freshId s.uuidCounter)
      insertSale.invoiceNumber insertSale.userId items _]
    dsimp only
    rw [hc]
    have hck : c.id = cid := mapGetBy_key Customer.id hc
    rw [← hck]
    exact mapGetBy_mapSetBy_self Customer.id s.customers
      (Customer.mk c.id c.name (c.loyaltyPoints + Rat.floor insertSale.total)
        (c.totalSpent + insertSale.total))
  · intro hnone
    unfold MemStorage.createSale MemStorage.applyCustomerAggregates
    dsimp only
    rw [hnone]
    exact MemStorage.createSaleLoop_customers now (freshId s.uuidCounter)
      insertSale.invoiceNumber insertSale.userId items _

/-- Witness for claim C8: the attached customer C1 with totalSpent 100 and
10 loyalty points after a sale of total 25.50. -/
theorem c8_createSale_customer_aggregates_witness :
    mapGetBy Customer.id ((MemStorage.createSale storeCust 0 saleHeaderCust
      linesCust).1).customers "C1" = some (Customer.mk customerC.id
        customerC.name
        (customerC.loyaltyPoints + Rat.floor saleHeaderCust.total)
        (customerC.totalSpent + saleHeaderCust.total)) :=
  (c8_createSale_customer_aggregates storeCust 0 saleHeaderCust linesCust).1
    "C1" customerC rfl rfl

/-- Claim C9 counterexample: over the scenario history (A revenue 100, B
revenue 250, C revenue 80), DatabaseStorage.getTopProducts is a stub and
returns the empty list instead of the required [B, A] — which is what
MemStorage produces. -/
theorem c9_db_getTopProducts_stub_returns_empty :
    DatabaseStorage.getTopProducts storeTop 2 = [] ∧
    (MemStorage.getTopProducts storeTop 2).map (fun e => e.product.id) =
      ["B", "A"] := by
  constructor
  · rfl
  · simp +decide only [MemStorage.getTopProducts, storeTop, topHistory,
      emptyStore, productA, productB, productC, accumulateSales, mapGetBy,
      mapSetBy, insertByRevenue, sortByRevenueDesc, List.filterMap,
      List.take, List.map]
    norm_num [insertByRevenue]

/-- Claim C9 (amended): MemStorage.getTopProducts returns a
revenue-descending list of at most limit entries whose sold totals and
revenues are exactly the per-product sums over the sale-item history, and on
the scenario history it returns [B, A]; DatabaseStorage.getTopProducts is a
stub returning the empty list for every store. -/
theorem c9_getTopProducts_characterization :
    (∀ (s : StoreState) (limit : Nat),
      ((MemStorage.getTopProducts s limit).Pairwise
        (fun a b => b.revenue ≤ a.revenue)) ∧
      (MemStorage.getTopProducts s limit).length ≤ limit ∧
      (∀ e ∈ MemStorage.getTopProducts s limit,
        e.totalSold = sumSold s.saleItems e.product.id ∧
        e.revenue = sumRevenue s.saleItems e.product.id)) ∧
    ((MemStorage.getTopProducts storeTop 2).map (fun e => e.product.id) =
      ["B", "A"]) ∧
    (∀ (s : StoreState) (limit : Nat),
      DatabaseStorage.getTopProducts s limit = []) := by
  refine ⟨fun s limit => ⟨?_, ?_, ?_⟩, ?_, fun s limit => rfl⟩
  · unfold MemStorage.getTopProducts
    dsimp only
    exact List.Pairwise.sublist (List.take_sublist _ _)
      (pairwise_sortByRevenueDesc _)
  · unfold MemStorage.getTopProducts
    dsimp only
    rw [List.length_take]
    exact min_le_left _ _
  · intro e he
    unfold MemStorage.getTopProducts at he
    dsimp only at he
    have he1 := mem_sortByRevenueDesc.mp (List.mem_of_mem_take he)
    obtain ⟨ae, hae, hfae⟩ := List.mem_filterMap.mp he1
    cases hlook : mapGetBy Product.id s.products ae.productId with
    | none => rw [hlook] at hfae; cases hfae
    | some q =>
      rw [hlook] at hfae
      have he2 : e = TopEntry.mk q ae.agg.totalSold ae.agg.revenue :=
        (Option.some.injEq _ _ ▸ hfae).symm
      have hqid : q.id = ae.productId := mapGetBy_key Product.id hlook
      have hnodup := accumulateSales_nodup s.saleItems [] (by simp)
      have hfaith := mapGetBy_of_mem_nodup AggEntry.productId hnodup hae
      have hsold := accumulateSales_sold s.saleItems [] ae.productId
      have hrev := accumulateSales_revenue s.saleItems [] ae.productId
      rw [hfaith] at hsold hrev
      simp only [mapGetBy, aggSoldOf, aggRevenueOf, zero_add] at hsold hrev
      subst he2
      constructor
      · dsimp only
        rw [hqid, hsold]
      · dsimp only
        rw [hqid, hrev]
  · simp +decide only [MemStorage.getTopProducts, storeTop, topHistory,
      emptyStore, productA, productB, productC, accumulateSales, mapGetBy,
      mapSetBy, insertByRevenue, sortByRevenueDesc, List.filterMap,
      List.take, List.map]
    norm_num [insertByRevenue]

/-- Witness for claim C9: the aggregate entry of product B over the scenario
history carries exactly the summed quantity and revenue. -/
theorem c9_getTopProducts_characterization_witness :
    entryB.totalSold = sumSold storeTop.saleItems entryB.product.id ∧
    entryB.revenue = sumRevenue storeTop.saleItems entryB.product.id := by
  refine (c9_getTopProducts_characterization.1 storeTop 2).2.2 entryB ?_
  simp +decide only [MemStorage.getTopProducts, storeTop, topHistory,
    emptyStore, productA, productB, productC, accumulateSales, mapGetBy,
    mapSetBy, insertByRevenue, sortByRevenueDesc, List.filterMap,
    List.take, entryB, List.mem_cons]
  norm_num [insertByRevenue]
